import Mathlib

/-!
Shallow embedding of the PlantBuddy bot core (`src/bot.py`, `src/storage.py`):
the due-state engine (`storage.compute_today`, `storage.log_water_many`,
`bot._build_today_payload`, `bot.api_water`) and the Telegram Mini App
initData verifier (`bot._validate_and_get_user_id`).

Modelling conventions:
* An aware Python `datetime` is an absolute instant (Unix seconds) together
  with the UTC offset of the zone it is represented in; `.date()` is floor
  division of the zone-local seconds by 86400, giving a day number.
* Machine integers are `Int`/`Nat` (Python integers are unbounded anyway).
* The database is the record of the three tables created by
  `storage.init_db`; SQL statements are list transformations.
* Fallible Python code returns `Except`.
-/

deriving instance DecidableEq for Except

namespace PlantBuddy

/-- An aware Python `datetime`: an absolute instant `t` in Unix seconds plus
the UTC offset `off` (seconds) of the zone it is represented in.
`TIMESTAMPTZ` values come back from the driver as such aware datetimes. -/
structure PyDateTime where
  t : Int
  off : Int
deriving DecidableEq

/-- UTC offset in seconds of `ZoneInfo("Asia/Kolkata")` (fixed offset
+05:30, no DST), the deployment zone `TZ` of bot.py line 58. -/
def TZ_OFFSET : Int := 19800

/-- `dt.date()` as a day number: the calendar date of the instant in the
zone the datetime is currently represented in (floor division). -/
def pyDate (dt : PyDateTime) : Int := (dt.t + dt.off).fdiv 86400

/-- `dt.astimezone(zone)`: the same instant re-represented in the zone. -/
def astimezone (dt : PyDateTime) (zoneOff : Int) : PyDateTime := ⟨dt.t, zoneOff⟩

/-- A row of the `plants` table (storage.init_db): serial id, owner,
name, nullable `water_every_days`, nullable `last_watered_at`, `active`. -/
structure PlantRow where
  id : Int
  userId : Int
  name : String
  waterEveryDays : Option Int
  lastWateredAt : Option PyDateTime
  active : Bool
deriving DecidableEq

/-- A row of the `plant_photos` table (storage.init_db). -/
structure PhotoRow where
  userId : Int
  plantId : Int
  tgFileId : String
deriving DecidableEq

/-- The database: exactly the tables created by `storage.init_db`:
`plants`, `reminder_state` (user, last_sent_local_date) and
`plant_photos`.  There is no watering-log table in the schema. -/
structure DBState where
  plants : List PlantRow
  reminderState : List (Int × Option Int)
  plantPhotos : List PhotoRow
deriving DecidableEq

/-- The WHERE clause `id=%s AND user_id=%s AND active=TRUE` shared by
`storage.log_water` / `log_water_many` / `set_last_watered_bulk`. -/
def plantMatches (uid pid : Int) (p : PlantRow) : Bool :=
  p.id == pid && p.userId == uid && p.active

/-- One `UPDATE plants SET last_watered_at=%s WHERE id=%s AND user_id=%s
AND active=TRUE`: the new rows together with the SQL rowcount. -/
def updateLastWatered (rows : List PlantRow) (uid pid : Int) (w : PyDateTime) :
    List PlantRow × Nat :=
  (rows.map fun p => if plantMatches uid pid p then { p with lastWateredAt := some w } else p,
   rows.countP (plantMatches uid pid))

/-- The loop of `storage.log_water_many` (lines 158-168): one UPDATE per
submitted id, incrementing `updated` when the rowcount is exactly 1. -/
def log_water_many_go (db : DBState) (uid : Int) (pids : List Int) (w : PyDateTime)
    (updated : Nat) : DBState × Nat :=
  match pids with
  | [] => (db, updated)
  | pid :: rest =>
    let r := updateLastWatered db.plants uid pid w
    log_water_many_go { db with plants := r.1 } uid rest w
      (if r.2 = 1 then updated + 1 else updated)

/-- `storage.log_water_many(user_id, plant_ids, when)`: returns the new
database state and the count of ids actually updated.  The Python early
return `if not plant_ids: return 0` coincides with the empty loop. -/
def log_water_many (db : DBState) (uid : Int) (pids : List Int) (w : PyDateTime) :
    DBState × Nat :=
  log_water_many_go db uid pids w 0

/-- Classification of one row inside `storage.compute_today` (lines
201-212).  The guard is Python truthiness `if not every or not last`:
`every` is falsy when NULL or 0, a datetime is never falsy so `last` is
falsy exactly when NULL.  `last.date()` is taken in the zone the stored
timestamp is represented in, without normalisation.  A row with
`due > today` is appended to none of the three lists. -/
inductive RowClass where
  | unknownRow
  | overdueRow (days : Int)
  | dueTodayRow
  | droppedRow
deriving DecidableEq

/-- The per-row branch of `storage.compute_today`. -/
def classifyRow (today : Int) (every : Option Int) (last : Option PyDateTime) : RowClass :=
  match every, last with
  | some e, some l =>
    if e = 0 then .unknownRow
    else
      let due := pyDate l + e
      if due < today then .overdueRow (today - due)
      else if due = today then .dueTodayRow
      else .droppedRow
  | _, _ => .unknownRow

/-- `storage.compute_today(user_id, today)`: builds the
`(overdue, today_list, unknown)` triple by appending per active row of the
identity, in table order. -/
def compute_today (db : DBState) (uid : Int) (today : Int) :
    List (String × Int) × List String × List String :=
  (db.plants.filter fun p => p.userId == uid && p.active).foldl
    (fun acc p =>
      match classifyRow today p.waterEveryDays p.lastWateredAt with
      | .overdueRow d => (acc.1 ++ [(p.name, d)], acc.2.1, acc.2.2)
      | .dueTodayRow => (acc.1, acc.2.1 ++ [p.name], acc.2.2)
      | .unknownRow => (acc.1, acc.2.1, acc.2.2 ++ [p.name])
      | .droppedRow => acc)
    ([], [], [])

/-- Python string comparison on code points, on the underlying character
lists (for UTF-8 text, code-point order coincides with byte-wise
lexicographic order). -/
def charListLE : List Char → List Char → Bool
  | [], _ => true
  | _ :: _, [] => false
  | a :: as, b :: bs =>
    if a.toNat < b.toNat then true
    else if b.toNat < a.toNat then false
    else charListLE as bs

/-- `a <= b` on Python strings (code-point lexicographic). -/
def strLE (a b : String) : Bool := charListLE a.data b.data

/-- Python `str.lower()` restricted to the alphabets occurring in this
bot's data (ASCII and Cyrillic); other characters are left unchanged. -/
def pyCharLower (c : Char) : Char :=
  if 'A' ≤ c ∧ c ≤ 'Z' then Char.ofNat (c.toNat + 32)
  else if 'А' ≤ c ∧ c ≤ 'Я' then Char.ofNat (c.toNat + 32)
  else if c = 'Ё' then 'ё'
  else c

/-- Python `s.lower()`. -/
def pyLower (s : String) : String := String.mk (s.data.map pyCharLower)

/-- One element of the `items` array built by `bot._build_today_payload`. -/
structure Item where
  id : Int
  name : String
  status : String
  norm_days : Option Int
  days_since : Option Int
  overdue_days : Option Int
  due_in_days : Option Int
deriving DecidableEq

/-- bot.py line 970: `order = {"overdue": 0, "due": 1, "setup": 2, "ok": 3}`
read through `order.get(x["status"], 9)`. -/
def statusRank (s : String) : Nat :=
  if s = "overdue" then 0
  else if s = "due" then 1
  else if s = "setup" then 2
  else if s = "ok" then 3
  else 9

/-- The comparison induced by the sort key of bot.py line 971,
`(order.get(x["status"], 9), x["name"].lower())`, compared as a Python
tuple (first component, then the lowercased name). -/
def itemLE (a b : Item) : Bool :=
  if statusRank a.status = statusRank b.status then strLE (pyLower a.name) (pyLower b.name)
  else decide (statusRank a.status < statusRank b.status)

/-- `items.sort(key=...)` (bot.py line 971): a stable sort by the key.
Any stable sort by a total preorder computes the same list; it is
embedded as insertion sort, which is stable. -/
def sortItems (l : List Item) : List Item :=
  l.insertionSort fun a b => itemLE a b = true

/-- The only exception relevant to the embedded bot code: bot.py line 4
imports only `datetime` and `date` from the `datetime` module and binds
`timedelta` nowhere, so evaluating the name `timedelta` raises
`NameError: name 'timedelta' is not defined`. -/
inductive PyError where
  | nameErrorTimedelta
deriving DecidableEq

/-- `int(norm_days) if norm_days else None` (bot.py line 963): 0 is falsy. -/
def normField (norm : Option Int) : Option Int :=
  match norm with
  | some e => if e = 0 then none else some e
  | none => none

/-- The loop body of `bot._build_today_payload` for one plant (lines
930-967).  When `norm_days` is truthy (non-NULL and nonzero) and
`last_watered_at` is set, control reaches line 947
`due_date = last_date + timedelta(days=int(norm_days))`, which raises
`NameError` because `timedelta` is unbound in bot.py; otherwise the row
takes the `setup` branch and the body completes with a setup item. -/
def buildItem (pid : Int) (pname : String) (norm : Option Int)
    (last : Option PyDateTime) : Except PyError Item :=
  match norm, last with
  | some e, some _ =>
    if e = 0 then
      .ok { id := pid, name := pname, status := "setup", norm_days := normField norm,
            days_since := none, overdue_days := none, due_in_days := none }
    else .error .nameErrorTimedelta
  | _, _ =>
    .ok { id := pid, name := pname, status := "setup", norm_days := normField norm,
          days_since := none, overdue_days := none, due_in_days := none }

/-- `storage.list_plants`: the user's active plants, `ORDER BY id`. -/
def list_plants (db : DBState) (uid : Int) : List (Int × String) :=
  ((db.plants.filter fun p => p.userId == uid && p.active).map fun p => (p.id, p.name)
    ).insertionSort fun a b => a.1 ≤ b.1

/-- `storage.get_plant_context`: name, water_every_days and
last_watered_at of the user's active plant with this id (first matching
row; ids are unique in a real table, the id column being SERIAL). -/
def get_plant_context (db : DBState) (uid pid : Int) :
    Option (String × Option Int × Option PyDateTime) :=
  (db.plants.find? fun p => p.userId == uid && p.id == pid && p.active).map
    fun p => (p.name, p.waterEveryDays, p.lastWateredAt)

/-- The `summary` object of the payload. -/
structure Summary where
  overdue : Nat
  due : Nat
  setup : Nat
  total : Nat
deriving DecidableEq

/-- The JSON payload of GET /api/today. -/
structure TodayPayload where
  date : Int
  summary : Summary
  items : List Item
deriving DecidableEq

/-- The iteration step of `bot._build_today_payload`: fetch the plant's
context and run the loop body (`buildItem`); a row whose context query
returns nothing is skipped (`continue`). -/
def buildStep (db : DBState) (uid : Int) (acc : List Item) (pn : Int × String) :
    Except PyError (List Item) :=
  match get_plant_context db uid pn.1 with
  | none => pure acc
  | some ctx => do
    let it ← buildItem pn.1 pn.2 ctx.2.1 ctx.2.2
    pure (acc ++ [it])

/-- `bot._build_today_payload(user_id)` with the local date
`today = datetime.now(TZ).date()` passed as a parameter.  Iterates the
identity's active plants in id order, runs the loop body for each (an
uncaught `NameError` propagates out of the whole function), then sorts
the items and summarises.  The counters incremented inside the Python
loop equal the status counts over the finished item list. -/
def _build_today_payload (db : DBState) (uid : Int) (today : Int) :
    Except PyError TodayPayload := do
  let items ← (list_plants db uid).foldlM (buildStep db uid) []
  pure
    { date := today
      summary :=
        { overdue := items.countP fun it => it.status == "overdue"
          due := items.countP fun it => it.status == "due"
          setup := items.countP fun it => it.status == "setup"
          total := items.length }
      items := sortItems items }

/-- The JSON body of bot.api_water's response. -/
structure ApiWaterResponse where
  ok : Bool
  updated : Nat
deriving DecidableEq

/-- `bot.api_water` (POST /api/water, lines 1223-1234): calls
`log_water_many` but discards its return value and answers
`{"ok": True, "updated": len(plant_ids)}`. -/
def api_water (db : DBState) (uid : Int) (plantIds : List Int) (w : PyDateTime) :
    DBState × ApiWaterResponse :=
  ((log_water_many db uid plantIds w).1, { ok := true, updated := plantIds.length })

/-- The failure taxonomy of `bot._validate_and_get_user_id`, one
constructor per distinct HTTP 401 detail string. -/
inductive AuthError where
  | missingInitData
  | missingHash
  | badHash
  | expired
  | missingUser
  | badUserPayload
deriving DecidableEq

/-- One lowercase hex digit. -/
def hexDigit (n : Nat) : Char :=
  if n < 10 then Char.ofNat (48 + n) else Char.ofNat (87 + n)

/-- `hashlib` `.hexdigest()`: lowercase hex encoding of a byte string. -/
def hexLower (bytes : List Nat) : String :=
  String.mk (bytes.foldr (fun b acc => hexDigit (b / 16 % 16) :: hexDigit (b % 16) :: acc) [])

/-- Key/value pairs sorted by key, Python `sorted` on code points. -/
def sortPairs (pairs : List (String × String)) : List (String × String) :=
  pairs.insertionSort fun a b => strLE a.1 b.1 = true

/-- bot.py lines 885-889: the data_check_string built from the parsed
initData pairs: drop the `hash` entry (the `pairs.pop("hash", None)`),
sort by key, join each pair as `k=v`, join lines with a single `\n` and
no trailing newline.  The Python dict is modelled as a pair list with
distinct keys, so sorting the pairs by key agrees with iterating
`sorted(pairs.keys())` and indexing the dict. -/
def data_check_string (pairs : List (String × String)) : String :=
  String.intercalate "\n"
    ((sortPairs (pairs.filter fun kv => kv.1 ≠ "hash")).map fun kv => kv.1 ++ "=" ++ kv.2)

/-- bot.py line 892, with the HMAC-SHA256 primitive and UTF-8 encoding
abstracted as parameters:
`secret_key = hmac.new(b"WebAppData", BOT_TOKEN.encode("utf-8"), hashlib.sha256).digest()`. -/
def secret_key (hmacSHA256 : List Nat → List Nat → List Nat) (utf8 : String → List Nat)
    (botToken : String) : List Nat :=
  hmacSHA256 (utf8 "WebAppData") (utf8 botToken)

/-- bot.py line 893: the lowercase hex HMAC-SHA256 of the
data_check_string under `secret_key`. -/
def calculated_hash (hmacSHA256 : List Nat → List Nat → List Nat)
    (utf8 : String → List Nat) (botToken : String)
    (pairs : List (String × String)) : String :=
  hexLower (hmacSHA256 (secret_key hmacSHA256 utf8 botToken)
    (utf8 (data_check_string pairs)))

/-- Python `str.isdigit()` for ASCII strings: nonempty and all decimal
digits (the embedding models initData as ASCII text). -/
def isDigits (s : String) : Bool :=
  !s.isEmpty && s.data.all fun c => '0' ≤ c && c ≤ '9'

/-- `int(s)` on a decimal digit string. -/
def digitsToInt (s : String) : Int :=
  Int.ofNat (s.data.foldl (fun n c => 10 * n + (c.toNat - 48)) 0)

/-- `pairs.get(k)` on the dict modelled as a pair list (first match). -/
def lookupKey (pairs : List (String × String)) (k : String) : Option String :=
  (pairs.find? fun kv => kv.1 == k).map Prod.snd

/-- bot.py lines 898-903: the anti-replay freshness check on the popped
pair set.  `True` means the request is rejected as expired: `auth_date`
present, truthy, all digits, and `int(time.time()) - auth_date > TTL`.
An absent, empty or non-digit `auth_date` skips the check. -/
def freshnessExpired (rest : List (String × String)) (now ttl : Int) : Bool :=
  match lookupKey rest "auth_date" with
  | some s => isDigits s && decide (now - digitsToInt s > ttl)
  | none => false

/-- `bot._validate_and_get_user_id(init_data)` (lines 871-915).
The inbound initData is modelled already parsed by
`dict(parse_qsl(init_data, keep_blank_values=True))` into `pairs`;
`rawEmpty` records whether the raw string was falsy (the
`if not init_data` guard).  `now = int(time.time())`,
`ttl = ASGI_TTL_SECONDS`, and `parseUser` abstracts
`int(json.loads(user_raw).get("id"))`, returning `none` when that
raises.  `hmac.compare_digest` is modelled by its functional behaviour,
equality of the two hex strings.  Note there is no fallback to a flat
`user_id` pair anywhere: a missing or empty `user` value fails
immediately. -/
def _validate_and_get_user_id (hmacSHA256 : List Nat → List Nat → List Nat)
    (utf8 : String → List Nat) (botToken : String) (ttl now : Int)
    (parseUser : String → Option Int) (rawEmpty : Bool)
    (pairs : List (String × String)) : Except AuthError Int :=
  if rawEmpty then .error .missingInitData
  else
    match lookupKey pairs "hash" with
    | none => .error .missingHash
    | some received =>
      if received = "" then .error .missingHash
      else if calculated_hash hmacSHA256 utf8 botToken pairs ≠ received then .error .badHash
      else
        let rest := pairs.filter fun kv => kv.1 ≠ "hash"
        if freshnessExpired rest now ttl then .error .expired
        else
          match lookupKey rest "user" with
          | none => .error .missingUser
          | some u =>
            if u = "" then .error .missingUser
            else
              match parseUser u with
              | some uid => .ok uid
              | none => .error .badUserPayload

/-- Modelled from the spec, §4.1 "Canonicalization algorithm": remove the
`hash` entry from the pair set; sort the remaining keys by byte-wise
lexicographic order (for UTF-8 keys this is the code-point order used
here); join each pair as `key=value`; join all lines with a single `\n`
separator and no trailing newline. -/
def specCheckString (pairs : List (String × String)) : String :=
  let remaining := pairs.filter fun kv => kv.1 ≠ "hash"
  let sortedKeys := (remaining.map Prod.fst).insertionSort fun a b => strLE a b = true
  String.intercalate "\n" (sortedKeys.map fun k => k ++ "=" ++ ((lookupKey remaining k).getD ""))

/-- Modelled from the spec, §4.1 "Key derivation" and "Signature
computation": first-stage key = keyed hash with key the literal
`"WebAppData"` and message the credential's bytes; signature = lowercase
hex keyed hash of the check string under that key. -/
def specSignature (hmacSHA256 : List Nat → List Nat → List Nat)
    (utf8 : String → List Nat) (credential : String)
    (pairs : List (String × String)) : String :=
  hexLower (hmacSHA256 (hmacSHA256 (utf8 "WebAppData") (utf8 credential))
    (utf8 (specCheckString pairs)))

/-! Basic lemmas about the bulk-watering update. -/

/-- The effect of a whole `log_water_many` batch on one row: rows matched
by some submitted id get `last_watered_at = when`, all others are kept. -/
def touchPlant (uid : Int) (pids : List Int) (w : PyDateTime) (p : PlantRow) : PlantRow :=
  if pids.any (fun pid => plantMatches uid pid p) then { p with lastWateredAt := some w } else p

theorem plantMatches_set_last (uid pid : Int) (p : PlantRow) (x : Option PyDateTime) :
    plantMatches uid pid { p with lastWateredAt := x } = plantMatches uid pid p := rfl

theorem touchPlant_step (uid pid : Int) (pids : List Int) (w : PyDateTime) (p : PlantRow) :
    touchPlant uid pids w (if plantMatches uid pid p then { p with lastWateredAt := some w } else p)
      = touchPlant uid (pid :: pids) w p := by
  cases hm : plantMatches uid pid p
  · simp only [touchPlant, hm, Bool.false_eq_true, if_false, List.any_cons, Bool.false_or]
  · simp only [touchPlant, hm, if_true, List.any_cons, Bool.true_or, plantMatches_set_last]
    split <;> rfl

theorem countP_touch (uid q : Int) (rows : List PlantRow) (f : PlantRow → PlantRow)
    (hf : ∀ p, plantMatches uid q (f p) = plantMatches uid q p) :
    (rows.map f).countP (plantMatches uid q) = rows.countP (plantMatches uid q) := by
  rw [List.countP_map]
  exact List.countP_congr fun p _ => by simp [Function.comp, hf]

theorem log_water_many_go_spec (uid : Int) (pids : List Int) (w : PyDateTime) :
    ∀ (db : DBState) (n : Nat),
      log_water_many_go db uid pids w n
        = ({ plants := db.plants.map (touchPlant uid pids w),
             reminderState := db.reminderState, plantPhotos := db.plantPhotos },
           n + pids.countP fun pid => decide (db.plants.countP (plantMatches uid pid) = 1)) := by
  induction pids with
  | nil =>
    intro db n
    have hid : touchPlant uid [] w = fun p => p := funext fun p => by simp [touchPlant]
    show (db, n) = _
    rw [hid, List.map_id', List.countP_nil, Nat.add_zero]
  | cons pid rest ih =>
    intro db n
    have step : log_water_many_go db uid (pid :: rest) w n
        = log_water_many_go
            { db with plants := (updateLastWatered db.plants uid pid w).1 } uid rest w
            (if (updateLastWatered db.plants uid pid w).2 = 1 then n + 1 else n) := rfl
    rw [step, ih]
    have hplants :
        (db.plants.map fun p =>
            if plantMatches uid pid p then { p with lastWateredAt := some w } else p).map
            (touchPlant uid rest w)
          = db.plants.map (touchPlant uid (pid :: rest) w) := by
      rw [List.map_map]
      exact List.map_congr_left fun p _ => touchPlant_step uid pid rest w p
    have hcnt : ∀ q : Int,
        ((db.plants.map fun p =>
            if plantMatches uid pid p then { p with lastWateredAt := some w } else p).countP
          (plantMatches uid q))
          = db.plants.countP (plantMatches uid q) := by
      intro q
      refine countP_touch uid q db.plants _ fun p => ?_
      cases hm : plantMatches uid pid p <;> simp [hm, plantMatches_set_last]
    simp only [updateLastWatered, hplants, List.countP_cons, hcnt]
    refine Prod.ext rfl ?_
    show (if db.plants.countP (plantMatches uid pid) = 1 then n + 1 else n)
        + rest.countP (fun q => decide (db.plants.countP (plantMatches uid q) = 1)) = _
    by_cases h1 : db.plants.countP (plantMatches uid pid) = 1
    · simp [h1]; omega
    · simp [h1]

/-- C8 counterexample database: one active configured plant, one reminder
row, one stored photo. -/
def dbC8 : DBState :=
  { plants := [{ id := 1, userId := 7, name := "fern", waterEveryDays := some 3,
                 lastWateredAt := none, active := true }],
    reminderState := [(7, some 0)],
    plantPhotos := [⟨7, 1, "file1"⟩] }

/-- C8: the claim states that `MarkServiced` both sets the last-serviced
timestamp and appends an immutable service-log entry `(owner, item,
timestamp)`.  The schema created by `storage.init_db` has no service-log
table at all and `storage.log_water_many` performs exactly one write per
item, the `UPDATE plants SET last_watered_at=...`.  At this concrete
input the complete post-state is the pre-state with only the plant's
timestamp changed: no table gained a row recording (owner, item,
timestamp), refuting the appended-log half of the claim. -/
theorem C8_counterexample :
    (log_water_many dbC8 7 [1] ⟨5, 0⟩).1
      = { plants := [{ id := 1, userId := 7, name := "fern", waterEveryDays := some 3,
                       lastWateredAt := some ⟨5, 0⟩, active := true }],
          reminderState := [(7, some 0)],
          plantPhotos := [⟨7, 1, "file1"⟩] } := by decide

/-- C8 (amended): for each owned, active item in `item_ids`,
`log_water_many` sets `last_watered_at` to `when`, and it performs no
other write: rows not matched are untouched, and the other tables —
there being no service-log table in the schema — are returned unchanged,
so no service-log entry is appended and the pairing of the two writes
claimed for each item is vacuous. -/
theorem C8_no_service_log (db : DBState) (uid : Int) (pids : List Int) (w : PyDateTime) :
    (log_water_many db uid pids w).1
      = { plants := db.plants.map (touchPlant uid pids w),
          reminderState := db.reminderState,
          plantPhotos := db.plantPhotos } := by
  rw [log_water_many, log_water_many_go_spec]

/-- C4 counterexample database: user 7 owns exactly one active plant. -/
def dbC4 : DBState :=
  { plants := [{ id := 1, userId := 7, name := "fern", waterEveryDays := none,
                 lastWateredAt := none, active := true }],
    reminderState := [], plantPhotos := [] }

/-- C4: submitting ids [1, 2] where only id 1 is an active plant of the
identity, `log_water_many` itself returns 1, but the count returned to
the caller of POST /api/water is `len(plant_ids) = 2` — bot.api_water
discards the function's return value (line 1233) and answers
`{"updated": len(plant_ids)}` (line 1234) — refuting the claim that the
caller of POST /api/water receives the number of the identity's own
active plants among the submitted ids. -/
theorem C4_counterexample :
    (log_water_many dbC4 7 [1, 2] ⟨0, 0⟩).2 = 1
    ∧ (api_water dbC4 7 [1, 2] ⟨0, 0⟩).2.updated = 2 := by decide

/-- C4 (amended): `log_water_many` does return the number of ids whose
UPDATE matched exactly one of the identity's own active plants — ids not
owned or not active are silently skipped and excluded from that count,
with no error — but `bot.api_water` discards this value and responds
with the number of submitted ids. -/
theorem C4_updated_counts (db : DBState) (uid : Int) (pids : List Int) (w : PyDateTime) :
    (log_water_many db uid pids w).2
        = pids.countP (fun pid => decide (db.plants.countP (plantMatches uid pid) = 1))
    ∧ (api_water db uid pids w).2.updated = pids.length := by
  constructor
  · rw [log_water_many, log_water_many_go_spec]
    exact Nat.zero_add _
  · rfl

/-! Status classification: claims C5 and C7. -/

/-- C5: the claim states that whenever the interval and the last-serviced
timestamp are both set, the due-date branch runs (`due_date =
last_serviced_date + interval_days`, overdue when `due_date < today`).
Counterexample: interval set to 0 with a set timestamp.  Python's guard
`if not every or not last` treats the set value 0 as falsy, so
`compute_today` classifies the row `unknown`, although the claim demands
`overdue` with `overdue_days = today - due_date = 1` here (`due_date =
date(1970-01-01) + 0 days < today = 1970-01-02`).  Interval 0 is
reachable: the /set_norms flow accepts the digit string "0". -/
theorem C5_counterexample :
    classifyRow 1 (some 0) (some ⟨0, 0⟩) = RowClass.unknownRow
    ∧ pyDate ⟨0, 0⟩ + 0 < 1
    ∧ RowClass.unknownRow ≠ RowClass.overdueRow 1 := by decide

/-- C5 (amended): a row is `unknown` when the interval is unset or 0, or
the last-serviced timestamp is unset; otherwise `due_date = last
serviced date + interval`, and the row is overdue with strictly positive
`overdue_days = today - due_date` when `due_date < today`, due when
`due_date = today`, and appended to none of compute_today's lists when
`due_date > today` (ok items are omitted from the triple). -/
theorem C5_status_classification (today e : Int) (l l' : PyDateTime) (he : e ≠ 0) :
    (classifyRow today (some e) (some l)
        = (if pyDate l + e < today then RowClass.overdueRow (today - (pyDate l + e))
           else if pyDate l + e = today then RowClass.dueTodayRow
           else RowClass.droppedRow))
    ∧ (pyDate l + e < today → 0 < today - (pyDate l + e))
    ∧ classifyRow today none (some l') = RowClass.unknownRow
    ∧ classifyRow today (some e) none = RowClass.unknownRow
    ∧ classifyRow today (some 0) (some l) = RowClass.unknownRow := by
  refine ⟨?_, ?_, rfl, rfl, ?_⟩
  · simp [classifyRow, he]
  · omega
  · simp [classifyRow]

/-- C5 witness: interval 7, last serviced 10 days before `today`
(day numbers 0 and 10): overdue by 3 days. -/
theorem C5_status_classification_witness :
    classifyRow 10 (some 7) (some ⟨0, 0⟩)
      = (if pyDate ⟨0, 0⟩ + 7 < 10 then RowClass.overdueRow (10 - (pyDate ⟨0, 0⟩ + 7))
         else if pyDate ⟨0, 0⟩ + 7 = 10 then RowClass.dueTodayRow
         else RowClass.droppedRow) :=
  (C5_status_classification 10 7 ⟨0, 0⟩ ⟨0, 0⟩ (by decide)).1

/-- bot.py lines 941-945: `last_local = last_watered_at.astimezone(TZ)`
followed by `last_date = last_local.date()` (the `except` branch is for
naive datetimes, which TIMESTAMPTZ columns never produce). -/
def botLastDate (last : PyDateTime) : Int := pyDate (astimezone last TZ_OFFSET)

/-- C7: the claim states that the status computation always normalises a
stored timestamp to the configured zone before taking its date
component.  `storage.compute_today` line 206 takes `last.date()`
directly, with no `astimezone`: for the instant 1970-01-01 23:00 UTC
(= 1970-01-02 04:30 in the configured Asia/Kolkata zone), the date used
differs from the normalised date, and the resulting classification
differs from the one the normalised date would give. -/
theorem C7_counterexample :
    pyDate ⟨82800, 0⟩ ≠ botLastDate ⟨82800, 0⟩
    ∧ classifyRow 1 (some 1) (some ⟨82800, 0⟩)
        ≠ classifyRow 1 (some 1) (some (astimezone ⟨82800, 0⟩ TZ_OFFSET)) := by decide

/-- C7 (amended): only `bot._build_today_payload` normalises the stored
timestamp to the configured zone before taking its date — its
`last_date` is independent of the zone the timestamp is represented in —
while `storage.compute_today` takes `last.date()` unnormalised, so its
classification of one and the same instant depends on the stored
representation (shown at the concrete instant 82800 s after the epoch,
represented in UTC and in the configured zone). -/
theorem C7_zone_normalisation (t off off' : Int) :
    botLastDate ⟨t, off⟩ = botLastDate ⟨t, off'⟩
    ∧ classifyRow 1 (some 1) (some ⟨82800, 0⟩) = RowClass.dueTodayRow
    ∧ classifyRow 1 (some 1) (some ⟨82800, TZ_OFFSET⟩) = RowClass.droppedRow :=
  ⟨rfl, by decide, by decide⟩

/-! Ordering of the mini-app item list: claim C6. -/

theorem charListLE_total : ∀ x y : List Char, charListLE x y = true ∨ charListLE y x = true := by
  intro x
  induction x with
  | nil => intro y; left; rfl
  | cons a as ih =>
    intro y
    cases y with
    | nil => right; rfl
    | cons b bs =>
      by_cases h1 : a.toNat < b.toNat
      · left; simp [charListLE, h1]
      · by_cases h2 : b.toNat < a.toNat
        · right; simp [charListLE, h2]
        · rcases ih bs with h | h
          · left; simp [charListLE, h1, h2, h]
          · right; simp [charListLE, h1, h2, h]

theorem charListLE_trans :
    ∀ x y z : List Char, charListLE x y = true → charListLE y z = true →
      charListLE x z = true := by
  intro x
  induction x with
  | nil => intro y z _ _; rfl
  | cons a as ih =>
    intro y z hxy hyz
    cases y with
    | nil => simp [charListLE] at hxy
    | cons b bs =>
      cases z with
      | nil => simp [charListLE] at hyz
      | cons c cs =>
        simp only [charListLE] at hxy hyz ⊢
        by_cases hab : a.toNat < b.toNat
        · by_cases hbc : b.toNat < c.toNat
          · simp [show a.toNat < c.toNat by omega]
          · by_cases hcb : c.toNat < b.toNat
            · rw [if_neg hbc, if_pos hcb] at hyz
              exact absurd hyz (by simp)
            · simp [show a.toNat < c.toNat by omega]
        · by_cases hba : b.toNat < a.toNat
          · rw [if_neg hab, if_pos hba] at hxy
            exact absurd hxy (by simp)
          · by_cases hbc : b.toNat < c.toNat
            · simp [show a.toNat < c.toNat by omega]
            · by_cases hcb : c.toNat < b.toNat
              · rw [if_neg hbc, if_pos hcb] at hyz
                exact absurd hyz (by simp)
              · rw [if_neg hab, if_neg hba] at hxy
                rw [if_neg hbc, if_neg hcb] at hyz
                rw [if_neg (show ¬a.toNat < c.toNat by omega),
                  if_neg (show ¬c.toNat < a.toNat by omega)]
                exact ih bs cs hxy hyz

theorem itemLE_total (a b : Item) : itemLE a b = true ∨ itemLE b a = true := by
  unfold itemLE
  by_cases h : statusRank a.status = statusRank b.status
  · rw [if_pos h, if_pos h.symm]
    exact charListLE_total _ _
  · rw [if_neg h, if_neg (Ne.symm h)]
    simp only [decide_eq_true_eq]
    omega

theorem itemLE_trans {a b c : Item} (h1 : itemLE a b = true) (h2 : itemLE b c = true) :
    itemLE a c = true := by
  unfold itemLE at h1 h2 ⊢
  by_cases hab : statusRank a.status = statusRank b.status
  · by_cases hbc : statusRank b.status = statusRank c.status
    · rw [if_pos hab] at h1
      rw [if_pos hbc] at h2
      rw [if_pos (hab.trans hbc)]
      exact charListLE_trans _ _ _ h1 h2
    · rw [if_neg hbc] at h2
      have hlt : statusRank b.status < statusRank c.status := of_decide_eq_true h2
      rw [if_neg (show ¬statusRank a.status = statusRank c.status by omega)]
      exact decide_eq_true_eq.mpr (by omega)
  · rw [if_neg hab] at h1
    have hlt : statusRank a.status < statusRank b.status := of_decide_eq_true h1
    by_cases hbc : statusRank b.status = statusRank c.status
    · rw [if_neg (show ¬statusRank a.status = statusRank c.status by omega)]
      exact decide_eq_true_eq.mpr (by omega)
    · rw [if_neg hbc] at h2
      have hlt2 : statusRank b.status < statusRank c.status := of_decide_eq_true h2
      rw [if_neg (show ¬statusRank a.status = statusRank c.status by omega)]
      exact decide_eq_true_eq.mpr (by omega)

instance : IsTotal Item fun a b => itemLE a b = true := ⟨itemLE_total⟩

instance : IsTrans Item fun a b => itemLE a b = true := ⟨fun _ _ _ => itemLE_trans⟩

/-- C6 counterexample items: two overdue items where the more-overdue one
has the alphabetically later name. -/
def itemAloe : Item :=
  { id := 1, name := "aloe", status := "overdue", norm_days := some 1,
    days_since := some 2, overdue_days := some 1, due_in_days := none }

/-- The second C6 counterexample item, overdue by 5 days. -/
def itemBasil : Item :=
  { id := 2, name := "basil", status := "overdue", norm_days := some 1,
    days_since := some 6, overdue_days := some 5, due_in_days := none }

/-- C6: the claim states that ties among overdue items are broken by
descending `overdue_days` (most overdue first).  The sort key of bot.py
line 971 is `(order.get(status, 9), name.lower())` — `overdue_days` is
not part of the key — so the item overdue by 1 day but named "aloe" is
placed before the item overdue by 5 days named "basil", where the claim
requires the opposite order. -/
theorem C6_counterexample :
    sortItems [itemBasil, itemAloe] = [itemAloe, itemBasil]
    ∧ itemAloe.status = "overdue" ∧ itemBasil.status = "overdue"
    ∧ itemAloe.overdue_days = some 1 ∧ itemBasil.overdue_days = some 5 := by decide

/-- C6 (amended): the returned list is a permutation of the items sorted
by the key (status rank, lowercased name): all overdue items first, then
due, then setup (needs configuration), then ok, and *within every status
group* — including the overdue group — items are ordered by display name
case-insensitively; `overdue_days` takes no part in the order. -/
theorem C6_sort_contract (l : List Item) :
    (sortItems l).Perm l
    ∧ List.Sorted (fun a b => itemLE a b = true) (sortItems l)
    ∧ (∀ a b : Item, itemLE a b = true ↔
        (statusRank a.status < statusRank b.status ∨
          (statusRank a.status = statusRank b.status
            ∧ strLE (pyLower a.name) (pyLower b.name) = true))) := by
  refine ⟨List.perm_insertionSort _ l, List.sorted_insertionSort _ l, ?_⟩
  intro a b
  unfold itemLE
  by_cases h : statusRank a.status = statusRank b.status
  · rw [if_pos h]
    simp [h, strLE]
  · rw [if_neg h]
    simp [h]

/-! Signature verification: claims C2, C3, C9. -/

theorem lookupKey_eq_of_nodup (l : List (String × String)) (kv : String × String)
    (hnd : (l.map Prod.fst).Nodup) (h : kv ∈ l) : lookupKey l kv.1 = some kv.2 := by
  induction l with
  | nil => cases h
  | cons a t ih =>
    rw [List.map_cons] at hnd
    rcases List.mem_cons.mp h with rfl | ht
    · rw [lookupKey, List.find?_cons_of_pos _ (by simp)]
      rfl
    · have hne : a.1 ≠ kv.1 := by
        intro he
        exact (List.nodup_cons.mp hnd).1 (he ▸ List.mem_map_of_mem Prod.fst ht)
      rw [lookupKey, List.find?_cons_of_neg _ (by simpa using hne)]
      exact ih (List.nodup_cons.mp hnd).2 ht

theorem specCheckString_eq (pairs : List (String × String))
    (hnd : ((pairs.filter fun kv => kv.1 ≠ "hash").map Prod.fst).Nodup) :
    specCheckString pairs = data_check_string pairs := by
  simp only [specCheckString, data_check_string, sortPairs]
  congr 1
  rw [← List.map_insertionSort (fun a b : String × String => strLE a.1 b.1 = true)
      (fun a b : String => strLE a b = true) Prod.fst _ (fun a _ b _ => Iff.rfl)]
  rw [List.map_map]
  refine List.map_congr_left fun kv hkv => ?_
  have hmem : kv ∈ pairs.filter fun kv => kv.1 ≠ "hash" := (List.mem_insertionSort _).mp hkv
  simp only [Function.comp]
  rw [lookupKey_eq_of_nodup _ kv hnd hmem]
  rfl

/-- C2: the verifier computes the signature exactly as specified: pop the
`hash` entry, sort the remaining pairs by key, join `key=value` lines
with single `\n` separators and no trailing newline, derive the signing
key as HMAC-SHA256 with key the literal bytes "WebAppData" and message
the credential, hex-encode the HMAC-SHA256 of the check string under
that key in lowercase, and reject with the bad-signature error exactly
when the computed digest differs from the received `hash`
(`hmac.compare_digest` modelled by its functional behaviour; its
constant-time execution is not observable in this embedding).  Stated
over an abstract HMAC primitive and UTF-8 encoder shared by the code
embedding and the spec model, for payloads with distinct keys (a Python
dict). -/
theorem C2_signature_scheme (hm : List Nat → List Nat → List Nat) (u8 : String → List Nat)
    (botToken : String) (ttl now : Int) (parseUser : String → Option Int)
    (pairs : List (String × String)) (received : String)
    (hnd : (pairs.map Prod.fst).Nodup) :
    calculated_hash hm u8 botToken pairs = specSignature hm u8 botToken pairs
    ∧ (lookupKey pairs "hash" = some received → received ≠ "" →
        (_validate_and_get_user_id hm u8 botToken ttl now parseUser false pairs
            = Except.error AuthError.badHash
          ↔ calculated_hash hm u8 botToken pairs ≠ received)) := by
  have hnd' : ((pairs.filter fun kv => kv.1 ≠ "hash").map Prod.fst).Nodup :=
    hnd.sublist ((List.filter_sublist pairs).map Prod.fst)
  constructor
  · simp only [calculated_hash, specSignature, secret_key]
    rw [specCheckString_eq pairs hnd']
  · intro hlk hne
    simp only [_validate_and_get_user_id, hlk, if_neg hne]
    by_cases hcalc : calculated_hash hm u8 botToken pairs = received
    · rw [if_neg (show ¬calculated_hash hm u8 botToken pairs ≠ received from fun h => h hcalc)]
      simp only [ne_eq, hcalc, not_true_eq_false, iff_false]
      intro hE
      repeat' split at hE
      all_goals simp at hE
    · rw [if_pos hcalc]
      simp [hcalc]

/-- A concrete stand-in for the HMAC-SHA256 primitive in witnesses. -/
def hmTest : List Nat → List Nat → List Nat := fun _ _ => [171]

/-- A concrete stand-in for the UTF-8 encoder in witnesses. -/
def u8Test : String → List Nat := fun s => s.data.map Char.toNat

/-- A concrete payload for the verifier witnesses. -/
def pairsTest : List (String × String) :=
  [("hash", "ab"), ("auth_date", "100"), ("user", "obj")]

/-- C2 witness: the hypotheses hold at a concrete payload. -/
theorem C2_signature_scheme_witness :
    calculated_hash hmTest u8Test "token" pairsTest
      = specSignature hmTest u8Test "token" pairsTest :=
  (C2_signature_scheme hmTest u8Test "token" 300 400 (fun _ => some 42) pairsTest "ab"
      (by decide)).1

theorem validate_post_hash (hm : List Nat → List Nat → List Nat) (u8 : String → List Nat)
    (botToken : String) (ttl now : Int) (parseUser : String → Option Int)
    (pairs : List (String × String)) (received : String)
    (hlk : lookupKey pairs "hash" = some received) (hne : received ≠ "")
    (hsig : calculated_hash hm u8 botToken pairs = received) :
    _validate_and_get_user_id hm u8 botToken ttl now parseUser false pairs
      = (if freshnessExpired (pairs.filter fun kv => kv.1 ≠ "hash") now ttl then
           Except.error AuthError.expired
         else
           match lookupKey (pairs.filter fun kv => kv.1 ≠ "hash") "user" with
           | none => Except.error AuthError.missingUser
           | some u =>
             if u = "" then Except.error AuthError.missingUser
             else
               match parseUser u with
               | some uid => Except.ok uid
               | none => Except.error AuthError.badUserPayload) := by
  simp only [_validate_and_get_user_id, hlk, if_neg hne, hsig]
  rw [if_neg (show ¬received ≠ received from fun h => h rfl)]
  rfl

/-- C3: the claim states that when a verified, fresh payload has no
`user` field, the verifier falls back to reading a flat `user_id` field,
failing only when neither yields a parseable integer.  The code (bot.py
lines 905-907) raises "Missing user" as soon as `pairs.get("user")` is
falsy, never consulting `user_id`: here the payload carries a valid
signature, a fresh `auth_date`, no `user` field and a parseable
`user_id=42`, yet verification fails. -/
theorem C3_counterexample :
    _validate_and_get_user_id hmTest u8Test "token" 300 100 (fun _ => none) false
        [("hash", "ab"), ("auth_date", "100"), ("user_id", "42")]
      = Except.error AuthError.missingUser
    ∧ lookupKey [("hash", "ab"), ("auth_date", "100"), ("user_id", "42")] "user_id" = some "42"
    ∧ isDigits "42" = true := by decide

/-- C3 (amended): after the signature and freshness checks pass, a
missing (or empty) `user` field fails immediately with the missing-user
error — no flat `user_id` fallback exists, whatever other pairs the
payload carries — and when `user` is present and nonempty the result is
the parsed id on success and the bad-user-payload error (NoIdentity)
exactly when `int(json.loads(user).get("id"))` fails. -/
theorem C3_no_user_id_fallback (hm : List Nat → List Nat → List Nat) (u8 : String → List Nat)
    (botToken : String) (ttl now : Int) (parseUser : String → Option Int)
    (pairs : List (String × String)) (received : String)
    (hlk : lookupKey pairs "hash" = some received) (hne : received ≠ "")
    (hsig : calculated_hash hm u8 botToken pairs = received)
    (hfresh : freshnessExpired (pairs.filter fun kv => kv.1 ≠ "hash") now ttl = false) :
    ((lookupKey (pairs.filter fun kv => kv.1 ≠ "hash") "user" = none ∨
        lookupKey (pairs.filter fun kv => kv.1 ≠ "hash") "user" = some "") →
      _validate_and_get_user_id hm u8 botToken ttl now parseUser false pairs
        = Except.error AuthError.missingUser)
    ∧ (∀ u, lookupKey (pairs.filter fun kv => kv.1 ≠ "hash") "user" = some u → u ≠ "" →
        _validate_and_get_user_id hm u8 botToken ttl now parseUser false pairs
          = (match parseUser u with
             | some i => Except.ok i
             | none => Except.error AuthError.badUserPayload)) := by
  have hv := validate_post_hash hm u8 botToken ttl now parseUser pairs received hlk hne hsig
  rw [hv, hfresh]
  simp only [Bool.false_eq_true, if_false]
  constructor
  · rintro (hu | hu)
    all_goals rw [hu]
    all_goals simp
  · intro u hu hune
    rw [hu]
    simp only [if_neg hune]

/-- C3 witness: a verified fresh payload without a `user` field fails
with the missing-user error. -/
theorem C3_no_user_id_fallback_witness :
    _validate_and_get_user_id hmTest u8Test "token" 300 100 (fun _ => none) false
        [("hash", "ab"), ("user_id", "42")]
      = Except.error AuthError.missingUser :=
  (C3_no_user_id_fallback hmTest u8Test "token" 300 100 (fun _ => none)
      [("hash", "ab"), ("user_id", "42")] "ab"
      (by decide) (by decide) (by decide) (by decide)).1 (Or.inl (by decide))

/-- C9: after the signature check passes, with a present all-digit
`auth_date`: an age of exactly `maxAge` (= ASGI_TTL_SECONDS) does not
fail with the expired error (the code rejects only `now - auth_date >
TTL`); an age of `maxAge + 1` or more fails with the expired error; and
when `auth_date` is absent or not a digit string the freshness check is
skipped entirely, so the expired error is impossible. -/
theorem C9_freshness_boundary (hm : List Nat → List Nat → List Nat) (u8 : String → List Nat)
    (botToken : String) (parseUser : String → Option Int)
    (pairs : List (String × String)) (received : String) (ttl now : Int)
    (hlk : lookupKey pairs "hash" = some received) (hne : received ≠ "")
    (hsig : calculated_hash hm u8 botToken pairs = received) :
    (∀ s, lookupKey (pairs.filter fun kv => kv.1 ≠ "hash") "auth_date" = some s →
        isDigits s = true → now - digitsToInt s = ttl →
        _validate_and_get_user_id hm u8 botToken ttl now parseUser false pairs
          ≠ Except.error AuthError.expired)
    ∧ (∀ s, lookupKey (pairs.filter fun kv => kv.1 ≠ "hash") "auth_date" = some s →
        isDigits s = true → ttl + 1 ≤ now - digitsToInt s →
        _validate_and_get_user_id hm u8 botToken ttl now parseUser false pairs
          = Except.error AuthError.expired)
    ∧ (lookupKey (pairs.filter fun kv => kv.1 ≠ "hash") "auth_date" = none →
        _validate_and_get_user_id hm u8 botToken ttl now parseUser false pairs
          ≠ Except.error AuthError.expired)
    ∧ (∀ s, lookupKey (pairs.filter fun kv => kv.1 ≠ "hash") "auth_date" = some s →
        isDigits s = false →
        _validate_and_get_user_id hm u8 botToken ttl now parseUser false pairs
          ≠ Except.error AuthError.expired) := by
  have hv := validate_post_hash hm u8 botToken ttl now parseUser pairs received hlk hne hsig
  refine ⟨?_, ?_, ?_, ?_⟩
  · intro s hs hds hnow
    have hf : freshnessExpired (pairs.filter fun kv => kv.1 ≠ "hash") now ttl = false := by
      simp only [freshnessExpired, hs, hds, Bool.true_and, decide_eq_false_iff_not]
      omega
    rw [hv, hf]
    simp only [Bool.false_eq_true, if_false]
    intro hE
    repeat' split at hE
    all_goals simp at hE
  · intro s hs hds hage
    have hf : freshnessExpired (pairs.filter fun kv => kv.1 ≠ "hash") now ttl = true := by
      simp only [freshnessExpired, hs, hds, Bool.true_and, decide_eq_true_eq]
      omega
    rw [hv, hf]
    rfl
  · intro hs
    have hf : freshnessExpired (pairs.filter fun kv => kv.1 ≠ "hash") now ttl = false := by
      simp only [freshnessExpired, hs]
    rw [hv, hf]
    simp only [Bool.false_eq_true, if_false]
    intro hE
    repeat' split at hE
    all_goals simp at hE
  · intro s hs hds
    have hf : freshnessExpired (pairs.filter fun kv => kv.1 ≠ "hash") now ttl = false := by
      simp only [freshnessExpired, hs, hds, Bool.false_and]
    rw [hv, hf]
    simp only [Bool.false_eq_true, if_false]
    intro hE
    repeat' split at hE
    all_goals simp at hE

/-- C9 witness: `auth_date` exactly `maxAge = 300` seconds in the past
(at `now = 400`, `auth_date = 100`) is not rejected as expired. -/
theorem C9_freshness_boundary_witness :
    _validate_and_get_user_id hmTest u8Test "token" 300 400 (fun _ => some 42) false
        pairsTest
      ≠ Except.error AuthError.expired :=
  (C9_freshness_boundary hmTest u8Test "token" (fun _ => some 42) pairsTest "ab" 300 400
      (by decide) (by decide) (by decide)).1 "100" (by decide) (by decide) (by decide)

/-! Claim C1: the missing `timedelta` import. -/

/-- A plant context that sends `_build_today_payload`'s loop body into
the branch evaluating the unbound name `timedelta`: the context exists,
its `norm_days` is truthy (non-NULL and nonzero) and its
`last_watered_at` is set. -/
def ctxQualifies (db : DBState) (uid pid : Int) : Prop :=
  ∃ nm e l, get_plant_context db uid pid = some (nm, some e, some l) ∧ e ≠ 0

theorem buildItem_error_iff (pid : Int) (pname : String) (norm : Option Int)
    (last : Option PyDateTime) :
    buildItem pid pname norm last = Except.error PyError.nameErrorTimedelta
      ↔ ∃ e, norm = some e ∧ e ≠ 0 ∧ ∃ l, last = some l := by
  cases norm with
  | none => simp [buildItem]
  | some e =>
    cases last with
    | none => simp [buildItem]
    | some l =>
      by_cases he : e = 0 <;> simp [buildItem, he]

theorem except_pure_ne_error {α : Type} (a : α) :
    (pure a : Except PyError α) ≠ Except.error PyError.nameErrorTimedelta := fun h =>
  Except.noConfusion h

theorem except_map_error {α β : Type} (m : Except PyError α) (f : α → β) :
    (m >>= fun a => pure (f a)) = (Except.error PyError.nameErrorTimedelta : Except PyError β)
      ↔ m = Except.error PyError.nameErrorTimedelta := by
  cases m with
  | error e =>
    cases e
    show (Except.error PyError.nameErrorTimedelta = Except.error PyError.nameErrorTimedelta) ↔ _
    exact ⟨fun _ => rfl, fun _ => rfl⟩
  | ok a =>
    show (Except.ok (f a) = Except.error PyError.nameErrorTimedelta) ↔ _
    simp

theorem buildStep_error_iff (db : DBState) (uid : Int) (acc : List Item) (pn : Int × String) :
    buildStep db uid acc pn = Except.error PyError.nameErrorTimedelta
      ↔ ctxQualifies db uid pn.1 := by
  unfold ctxQualifies
  cases hctx : get_plant_context db uid pn.1 with
  | none =>
    simp only [buildStep, hctx]
    constructor
    · intro h; exact absurd h (except_pure_ne_error acc)
    · rintro ⟨nm, e, l, hsome, _⟩; cases hsome
  | some ctx =>
    obtain ⟨nm, norm, last⟩ := ctx
    simp only [buildStep, hctx]
    rw [except_map_error, buildItem_error_iff]
    constructor
    · rintro ⟨e, he, hne, l, hl⟩
      exact ⟨nm, e, l, by rw [he, hl], hne⟩
    · rintro ⟨nm', e, l, hsome, hne⟩
      simp only [Option.some.injEq, Prod.mk.injEq] at hsome
      exact ⟨e, hsome.2.1, hne, l, hsome.2.2⟩

theorem foldlM_buildStep_error (db : DBState) (uid : Int) :
    ∀ (rows : List (Int × String)) (acc : List Item),
      (rows.foldlM (buildStep db uid) acc = Except.error PyError.nameErrorTimedelta
        ↔ ∃ pn ∈ rows, ctxQualifies db uid pn.1) := by
  intro rows
  induction rows with
  | nil =>
    intro acc
    rw [List.foldlM_nil]
    exact ⟨fun h => absurd h (except_pure_ne_error acc),
      fun ⟨pn, hmem, _⟩ => absurd hmem (List.not_mem_nil pn)⟩
  | cons r rs ih =>
    intro acc
    rw [List.foldlM_cons]
    cases hstep : buildStep db uid acc r with
    | error e =>
      cases e
      have hq : ctxQualifies db uid r.1 := (buildStep_error_iff db uid acc r).mp hstep
      rw [show ((Except.error PyError.nameErrorTimedelta : Except PyError (List Item)) >>=
          fun b => rs.foldlM (buildStep db uid) b) = Except.error PyError.nameErrorTimedelta
        from rfl]
      exact ⟨fun _ => ⟨r, List.mem_cons_self r rs, hq⟩, fun _ => rfl⟩
    | ok acc₂ =>
      have hq : ¬ctxQualifies db uid r.1 := fun h => by
        have h2 := (buildStep_error_iff db uid acc r).mpr h
        rw [hstep] at h2
        cases h2
      rw [show ((Except.ok acc₂ : Except PyError (List Item)) >>=
          fun b => rs.foldlM (buildStep db uid) b) = rs.foldlM (buildStep db uid) acc₂
        from rfl]
      rw [ih acc₂]
      constructor
      · rintro ⟨pn, hmem, hQ⟩
        exact ⟨pn, List.mem_cons_of_mem r hmem, hQ⟩
      · rintro ⟨pn, hmem, hQ⟩
        rcases List.mem_cons.mp hmem with rfl | hmem₂
        · exact absurd hQ hq
        · exact ⟨pn, hmem₂, hQ⟩

theorem build_today_payload_error_iff (db : DBState) (uid today : Int) :
    _build_today_payload db uid today = Except.error PyError.nameErrorTimedelta
      ↔ ∃ pn ∈ list_plants db uid, ctxQualifies db uid pn.1 := by
  rw [← foldlM_buildStep_error db uid (list_plants db uid) []]
  unfold _build_today_payload
  cases hfold : (list_plants db uid).foldlM (buildStep db uid) [] with
  | error e =>
    cases e
    exact ⟨fun _ => rfl, fun _ => rfl⟩
  | ok items =>
    exact ⟨fun h => absurd h (except_pure_ne_error _), fun h => Except.noConfusion h⟩

theorem mem_list_plants_iff (db : DBState) (uid : Int) (pn : Int × String) :
    pn ∈ list_plants db uid
      ↔ ∃ p ∈ db.plants, p.userId = uid ∧ p.active = true ∧ pn = (p.id, p.name) := by
  unfold list_plants
  rw [List.mem_insertionSort, List.mem_map]
  constructor
  · rintro ⟨p, hp, rfl⟩
    have h := List.mem_filter.mp hp
    have h2 := h.2
    simp only [Bool.and_eq_true, beq_iff_eq] at h2
    exact ⟨p, h.1, h2.1, h2.2, rfl⟩
  · rintro ⟨p, hp, hu, ha, rfl⟩
    exact ⟨p, List.mem_filter.mpr ⟨hp, by simp [hu, ha]⟩, rfl⟩

theorem ctxQualifies_elim (db : DBState) (uid pid : Int) (h : ctxQualifies db uid pid) :
    ∃ p ∈ db.plants, p.userId = uid ∧ p.active = true ∧
      (∃ e, p.waterEveryDays = some e ∧ e ≠ 0) ∧ (∃ l, p.lastWateredAt = some l) := by
  obtain ⟨nm, e, l, hctx, hne⟩ := h
  unfold get_plant_context at hctx
  cases hfind : db.plants.find? fun p => p.userId == uid && p.id == pid && p.active with
  | none => rw [hfind] at hctx; cases hctx
  | some q =>
    rw [hfind] at hctx
    have hq : q ∈ db.plants := List.mem_of_find?_eq_some hfind
    have hpred := List.find?_some hfind
    simp only [Bool.and_eq_true, beq_iff_eq] at hpred
    simp only [Option.map_some', Option.some.injEq, Prod.mk.injEq] at hctx
    exact ⟨q, hq, hpred.1.1, hpred.2, ⟨e, hctx.2.1, hne⟩, ⟨l, hctx.2.2⟩⟩

theorem find?_eq_of_unique {α : Type} (pred : α → Bool) :
    ∀ (l : List α) (p : α), p ∈ l → pred p = true → (∀ q ∈ l, pred q = true → q = p) →
      l.find? pred = some p := by
  intro l
  induction l with
  | nil => intro p hp _ _; cases hp
  | cons a t ih =>
    intro p hp hpred huniq
    by_cases ha : pred a = true
    · rw [List.find?_cons_of_pos _ ha]
      exact congrArg some (huniq a (List.mem_cons_self a t) ha)
    · rw [List.find?_cons_of_neg _ ha]
      rcases List.mem_cons.mp hp with rfl | hp₂
      · exact absurd hpred ha
      · exact ih p hp₂ hpred fun q hq => huniq q (List.mem_cons_of_mem a hq)

theorem get_plant_context_self (db : DBState) (uid : Int) (p : PlantRow)
    (hids : (db.plants.map PlantRow.id).Nodup) (hp : p ∈ db.plants)
    (hu : p.userId = uid) (ha : p.active = true) :
    get_plant_context db uid p.id = some (p.name, p.waterEveryDays, p.lastWateredAt) := by
  unfold get_plant_context
  rw [find?_eq_of_unique _ db.plants p hp (by simp [hu, ha]) ?uniq]
  · rfl
  case uniq =>
    intro q hq hqpred
    simp only [Bool.and_eq_true, beq_iff_eq] at hqpred
    exact List.inj_on_of_nodup_map hids hq hp hqpred.1.2

/-- C1 counterexample database: user 7 owns one active plant with both
fields set — `water_every_days = 0` (non-NULL) and a `last_watered_at`
timestamp. -/
def dbC1 : DBState :=
  { plants := [{ id := 1, userId := 7, name := "fern", waterEveryDays := some 0,
                 lastWateredAt := some ⟨0, 0⟩, active := true }],
    reminderState := [], plantPhotos := [] }

/-- C1: the claim quantifies over every plant whose interval and
last-watered timestamp are both set.  With the interval set to the
(reachable) value 0 and a timestamp present, the loop body's guard `if
not norm_days or not last_watered_at` treats 0 as falsy, takes the setup
branch and never reaches line 947, so `_build_today_payload` completes
normally instead of raising NameError. -/
theorem C1_counterexample :
    _build_today_payload dbC1 7 5
      = Except.ok
          { date := 5,
            summary := { overdue := 0, due := 0, setup := 1, total := 1 },
            items := [{ id := 1, name := "fern", status := "setup", norm_days := none,
                        days_since := none, overdue_days := none, due_in_days := none }] }
    ∧ _build_today_payload dbC1 7 5 ≠ Except.error PyError.nameErrorTimedelta := by decide

/-- C1 (amended): `_build_today_payload` raises the uncaught
`NameError` on the unbound name `timedelta` (bot.py line 947; line 4
imports only `datetime` and `date`) exactly when the identity owns at
least one active plant whose interval is set and nonzero and whose
last-watered timestamp is set; for every such input the ok/due/overdue
branch never completes.  (Ids are assumed distinct, as the SERIAL
primary key guarantees.) -/
theorem C1_missing_timedelta (db : DBState) (uid today : Int)
    (hids : (db.plants.map PlantRow.id).Nodup) :
    _build_today_payload db uid today = Except.error PyError.nameErrorTimedelta
      ↔ ∃ p ∈ db.plants, p.userId = uid ∧ p.active = true ∧
          (∃ e, p.waterEveryDays = some e ∧ e ≠ 0) ∧ (∃ l, p.lastWateredAt = some l) := by
  rw [build_today_payload_error_iff]
  constructor
  · rintro ⟨pn, _, hq⟩
    exact ctxQualifies_elim db uid pn.1 hq
  · rintro ⟨p, hp, hu, ha, ⟨e, hne, he0⟩, ⟨l, hl⟩⟩
    refine ⟨(p.id, p.name), (mem_list_plants_iff db uid _).mpr ⟨p, hp, hu, ha, rfl⟩, ?_⟩
    exact ⟨p.name, e, l,
      by rw [show ((p.id, p.name) : Int × String).1 = p.id from rfl,
        get_plant_context_self db uid p hids hp hu ha, hne, hl], he0⟩

/-- C1 witness database: a plant with a nonzero interval and a set
timestamp. -/
def dbC1w : DBState :=
  { plants := [{ id := 1, userId := 7, name := "fern", waterEveryDays := some 3,
                 lastWateredAt := some ⟨0, 0⟩, active := true }],
    reminderState := [], plantPhotos := [] }

/-- C1 witness: with interval 3 and a set timestamp, the payload
computation raises the NameError. -/
theorem C1_missing_timedelta_witness :
    _build_today_payload dbC1w 7 5 = Except.error PyError.nameErrorTimedelta :=
  (C1_missing_timedelta dbC1w 7 5 (by decide)).mpr
    ⟨{ id := 1, userId := 7, name := "fern", waterEveryDays := some 3,
       lastWateredAt := some ⟨0, 0⟩, active := true },
     by decide, rfl, rfl, ⟨3, rfl, by decide⟩, ⟨⟨0, 0⟩, rfl⟩⟩

/-! Claim C10: marking serviced today never yields overdue. -/

theorem compute_fold_overdue (today : Int) :
    ∀ (rows : List PlantRow) (acc : List (String × Int) × List String × List String)
      (n : String) (d : Int),
      (n, d) ∈ (rows.foldl (fun acc p =>
          match classifyRow today p.waterEveryDays p.lastWateredAt with
          | .overdueRow d => (acc.1 ++ [(p.name, d)], acc.2.1, acc.2.2)
          | .dueTodayRow => (acc.1, acc.2.1 ++ [p.name], acc.2.2)
          | .unknownRow => (acc.1, acc.2.1, acc.2.2 ++ [p.name])
          | .droppedRow => acc) acc).1 →
      (n, d) ∈ acc.1 ∨ ∃ p ∈ rows, p.name = n ∧
        classifyRow today p.waterEveryDays p.lastWateredAt = RowClass.overdueRow d := by
  intro rows
  induction rows with
  | nil => intro acc n d h; exact Or.inl h
  | cons p rs ih =>
    intro acc n d h
    rw [List.foldl_cons] at h
    cases hc : classifyRow today p.waterEveryDays p.lastWateredAt with
    | overdueRow d₂ =>
      rw [hc] at h
      rcases ih _ n d h with h₂ | ⟨q, hq, hqn, hqc⟩
      · rcases List.mem_append.mp h₂ with h₃ | h₃
        · exact Or.inl h₃
        · have h₄ := List.mem_singleton.mp h₃
          have hn : p.name = n := by injection h₄ with h₅ h₆; exact h₅.symm
          have hd : d₂ = d := by injection h₄ with h₅ h₆; exact h₆.symm
          exact Or.inr ⟨p, List.mem_cons_self p rs, hn, by rw [hc, hd]⟩
      · exact Or.inr ⟨q, List.mem_cons_of_mem p hq, hqn, hqc⟩
    | dueTodayRow =>
      rw [hc] at h
      rcases ih _ n d h with h₂ | ⟨q, hq, hqn, hqc⟩
      · exact Or.inl h₂
      · exact Or.inr ⟨q, List.mem_cons_of_mem p hq, hqn, hqc⟩
    | unknownRow =>
      rw [hc] at h
      rcases ih _ n d h with h₂ | ⟨q, hq, hqn, hqc⟩
      · exact Or.inl h₂
      · exact Or.inr ⟨q, List.mem_cons_of_mem p hq, hqn, hqc⟩
    | droppedRow =>
      rw [hc] at h
      rcases ih _ n d h with h₂ | ⟨q, hq, hqn, hqc⟩
      · exact Or.inl h₂
      · exact Or.inr ⟨q, List.mem_cons_of_mem p hq, hqn, hqc⟩

theorem compute_today_overdue_mem (db : DBState) (uid today : Int) (n : String) (d : Int)
    (h : (n, d) ∈ (compute_today db uid today).1) :
    ∃ p ∈ db.plants, p.userId = uid ∧ p.active = true ∧ p.name = n ∧
      classifyRow today p.waterEveryDays p.lastWateredAt = RowClass.overdueRow d := by
  unfold compute_today at h
  rcases compute_fold_overdue today _ ([], [], []) n d h with h₂ | ⟨p, hp, hn, hc⟩
  · cases h₂
  · have h₃ := List.mem_filter.mp hp
    have h₄ := h₃.2
    simp only [Bool.and_eq_true, beq_iff_eq] at h₄
    exact ⟨p, h₃.1, h₄.1, h₄.2, hn, hc⟩

/-- C10: marking a set of the identity's own active plants as watered at
an instant `w` whose configured-zone local date is `today`, with a
configured interval of at least 1 day, and then immediately recomputing
statuses for `today`, never reports any of the marked plants as overdue.
Hypotheses: plant names are unique per owner (the `UNIQUE(user_id,
name)` constraint of the schema) and the zone offset the stored
timestamp is represented in is a real-world offset (at least UTC-12);
`compute_today` reports overdue entries by name, so the absence of the
pair `(p.name, d)` for every `d` is the no-overdue statement. -/
theorem C10_no_overdue_after_marking (db : DBState) (uid today e : Int) (pids : List Int)
    (w : PyDateTime) (p : PlantRow)
    (hinj : ∀ a ∈ db.plants, ∀ b ∈ db.plants, a.userId = b.userId → a.name = b.name → a = b)
    (hp : p ∈ db.plants) (hid : p.id ∈ pids) (hu : p.userId = uid) (ha : p.active = true)
    (hn : p.waterEveryDays = some e) (he : 1 ≤ e)
    (hlocal : pyDate (astimezone w TZ_OFFSET) = today) (hoff : -43200 ≤ w.off) :
    ∀ d : Int, (p.name, d) ∉ (compute_today (log_water_many db uid pids w).1 uid today).1 := by
  intro d hmem
  have hdb : (log_water_many db uid pids w).1.plants = db.plants.map (touchPlant uid pids w) := by
    rw [log_water_many, log_water_many_go_spec]
  obtain ⟨q, hq, hqu, hqa, hqn, hqc⟩ :=
    compute_today_overdue_mem (log_water_many db uid pids w).1 uid today p.name d hmem
  rw [hdb] at hq
  obtain ⟨q₀, hq₀, rfl⟩ := List.mem_map.mp hq
  have hfields : (touchPlant uid pids w q₀).userId = q₀.userId
      ∧ (touchPlant uid pids w q₀).name = q₀.name
      ∧ (touchPlant uid pids w q₀).waterEveryDays = q₀.waterEveryDays := by
    unfold touchPlant
    split
    · exact ⟨rfl, rfl, rfl⟩
    · exact ⟨rfl, rfl, rfl⟩
  have heq : q₀ = p := by
    refine hinj q₀ hq₀ p hp ?_ ?_
    · rw [← hfields.1] at *
      rw [hqu, hu]
    · rw [← hfields.2.1]
      exact hqn
  subst heq
  have hany : (pids.any fun pid => plantMatches uid pid q₀) = true :=
    List.any_eq_true.mpr ⟨q₀.id, hid, by simp [plantMatches, hu, ha]⟩
  have htouch : touchPlant uid pids w q₀ = { q₀ with lastWateredAt := some w } := by
    unfold touchPlant
    rw [if_pos hany]
  rw [htouch] at hqc
  have hqc₂ : classifyRow today q₀.waterEveryDays (some w) = RowClass.overdueRow d := hqc
  rw [hn] at hqc₂
  simp only [classifyRow] at hqc₂
  rw [if_neg (show ¬e = 0 by omega)] at hqc₂
  have hdue : ¬(pyDate w + e < today) := by
    unfold pyDate at hlocal ⊢
    unfold astimezone at hlocal
    rw [Int.fdiv_eq_ediv _ (by norm_num)] at hlocal
    rw [Int.fdiv_eq_ediv _ (by norm_num)]
    simp only [TZ_OFFSET] at hlocal
    omega
  rw [if_neg hdue] at hqc₂
  split at hqc₂
  · cases hqc₂
  · cases hqc₂

/-- C10 witness database: one active plant with interval 1, never
watered. -/
def dbC10 : DBState :=
  { plants := [{ id := 1, userId := 7, name := "fern", waterEveryDays := some 1,
                 lastWateredAt := none, active := true }],
    reminderState := [], plantPhotos := [] }

/-- C10 witness: watering plant 1 at the epoch instant represented in
the configured zone (local date 0) and recomputing for day 0 does not
report it overdue (by 1 day, as an instance). -/
theorem C10_no_overdue_after_marking_witness :
    ("fern", (1 : Int)) ∉ (compute_today (log_water_many dbC10 7 [1] ⟨0, TZ_OFFSET⟩).1 7 0).1 :=
  C10_no_overdue_after_marking dbC10 7 0 1 [1] ⟨0, TZ_OFFSET⟩
    { id := 1, userId := 7, name := "fern", waterEveryDays := some 1,
      lastWateredAt := none, active := true }
    (by decide) (by decide) (by decide) rfl rfl rfl (by decide) (by decide) (by decide) 1

end PlantBuddy
